import Mathlib

/-!
Verification of the likearthian/apikit request-authentication and
request-pipeline core: a shallow embedding of the Go source (error
translation in errs.go, endpoint/middleware composition, the JWT token
codec and auth middleware, the HTTP auth middlewares, and the multipart
decoders), together with theorems settling the frozen specification
claims over that embedding.

Conventions of the embedding:
* Go machine integers are modelled as Nat/Int; byte strings as Lean
  String or List Char (one Char per byte, exact for the ASCII data the
  claims concern).
* Fallible Go code returns Except/Option; a Go runtime panic is a
  distinguished result constructor.
* The process-wide random source of math/rand is injected as an explicit
  natural number draw, as the design notes of the repository suggest.
-/

namespace Apikit

/-! ## Go error values and errs.go

Go errors created by errors.New / fmt.Errorf are distinct values even
when their messages coincide; errors.Is walks the fmt.Errorf("%w", ...)
wrap chain comparing identities.  A GoErr.base carries the name of the
Go variable (or call site) as its identity tag together with its
message; GoErr.wrap is fmt.Errorf with a %w verb. -/

inductive GoErr where
  | base (name : String) (msg : String)
  | wrap (msg : String) (inner : GoErr)
deriving DecidableEq, BEq, Repr

/-- errors.Is: identity on the error itself, else unwrap the chain. -/
def errorsIs : GoErr → GoErr → Bool
  | .base n m, t => GoErr.base n m == t
  | .wrap m inner, t => GoErr.wrap m inner == t || errorsIs inner t

/- The sentinel errors of errs.go (package apikit). -/

def ErrBucketNotFound : GoErr := .base "ErrBucketNotFound" "bucket not found"

def ErrKeyAlreadyExists : GoErr := .base "ErrKeyAlreadyExists" "key already exists"

def ErrKeynotFound : GoErr := .base "ErrKeynotFound" "key not found"

def ErrBadRequest : GoErr := .base "ErrBadRequest" "bad request"

def ErrInvalidUserPassword : GoErr := .base "ErrInvalidUserPassword" "invalid user or password"

def ErrForbidden : GoErr := .base "ErrForbidden" "not authorized to access this resource"

def ErrUnauthorized : GoErr := .base "ErrUnauthorized" "unauthorized"

def ErrNoRow : GoErr := .base "ErrNoRow" "no row"

def ErrTokenContextMissing : GoErr :=
  .base "ErrTokenContextMissing" "token up for parsing was not passed through the context"

def ErrTokenInvalid : GoErr := .base "ErrTokenInvalid" "JWT Token was invalid"

def ErrTokenExpired : GoErr := .base "ErrTokenExpired" "JWT Token is expired"

def ErrTokenMalformed : GoErr := .base "ErrTokenMalformed" "JWT Token is malformed"

def ErrTokenNotActive : GoErr := .base "ErrTokenNotActive" "token is not valid yet"

def ErrUnexpectedSigningMethod : GoErr :=
  .base "ErrUnexpectedSigningMethod" "unexpected signing method"

/-- Err2code of errs.go: the error-to-HTTP-status translator.  The Go
switch evaluates its errors.Is cases in declaration order and falls
back to http.StatusInternalServerError. -/
def Err2code (err : GoErr) : Nat :=
  if errorsIs err ErrKeynotFound then 404
  else if errorsIs err ErrBadRequest then 400
  else if errorsIs err ErrInvalidUserPassword then 511
  else if errorsIs err ErrUnauthorized then 401
  else if errorsIs err ErrForbidden then 403
  else if errorsIs err ErrTokenExpired || errorsIs err ErrTokenInvalid
       || errorsIs err ErrTokenMalformed || errorsIs err ErrTokenNotActive then 401
  else 500

/-- Modelled from the spec: the api package re-declares a shared
bad-request sentinel (api.ErrBadRequest, referenced by the multipart
decoders at their too-large failure sites but declared outside src/).
The spec status mapping sends payload-too-large to the bad-request
class, so the missing declaration is identified with the translator
sentinel ErrBadRequest of errs.go. -/
def apiErrBadRequest : GoErr := ErrBadRequest

/-- The payload-too-large error built by CreateMultipartStreamDecoder
for an over-cap form value: fmt.Errorf with a %w wrap of
api.ErrBadRequest. -/
def errMultipartMessageTooLarge : GoErr :=
  .wrap "multipart: message too large" apiErrBadRequest

/-- The file-too-large error built by CreateMultipartStreamDecoder for
an over-cap file part. -/
def errMultipartFileTooLarge : GoErr :=
  .wrap "multipart: file too large" apiErrBadRequest

/-- The plain (unwrapped) too-large error of the single-file stream
decoder: fmt.Errorf("multipart: message to large") with no %w verb. -/
def errSingleFileMessageTooLarge : GoErr :=
  .base "singleFileDecoderTooLarge" "multipart: message to large"

/-! ## The auth-path error taxonomy of package api

The api package declares its own sentinel errors for the JWT auth
middleware (auth_middleware.go).  The middleware only ever returns one
of these causes, so they are embedded as a closed inductive. -/

inductive AuthErr where
  | tokenContextMissing
  | tokenInvalid
  | tokenExpired
  | tokenMalformed
  | tokenNotActive
  | unexpectedSigningMethod
  /-- fmt.Errorf("not authorized to access this resource"), built fresh
  on the fall-through branch of the error switch. -/
  | notAuthorized
  /-- fmt.Errorf("failed to parse the kid ID. %w", err) from getKey. -/
  | kidParseFailed
  /-- fmt.Errorf("kid index is out of range") from getKey. -/
  | kidOutOfRange
deriving DecidableEq, Repr

/-! ## Claims, tokens and the jwt-go v4 parser model

Claims are the token payload; their concrete shape (standard or
extended) is irrelevant to the claims under audit, so the payload is
kept opaque. -/

structure ClaimsData where
  raw : String
deriving DecidableEq, Repr, Inhabited

inductive SigningMethod where
  | hs256
  | other (name : String)
deriving DecidableEq, Repr, Inhabited

/-- The decoded view of a token string, as the jwt-go v4 parser and the
key callback observe it: well-formedness of the three-segment encoding,
the alg header, the kid header (absent or a string), the temporal claim
outcomes, the key its signature verifies under, and the parsed claims.
Every Go token string denotes one such view; middleware embeddings take
the denotation map as an explicit parameter. -/
structure TokenRepr where
  wellFormed : Bool
  method : SigningMethod
  kidHeader : Option String
  expired : Bool
  notYetValid : Bool
  sigKey : String
  claims : ClaimsData
deriving DecidableEq, Repr, Inhabited

/-- The error classes of the jwt-go v4 parser that the middlewares
distinguish.  Modelled from the dgrijalva/jwt-go/v4 library (an external
dependency): a Keyfunc failure is wrapped in an UnverfiableTokenError,
which is none of MalformedTokenError / TokenExpiredError /
TokenNotValidYetError. -/
inductive JwtParseErr where
  | malformed
  | keyfuncFailed (e : AuthErr)
  | expired
  | notValidYet
  | sigInvalid
deriving DecidableEq, Repr

/-- jwt.ParseWithClaims, modelled from the dgrijalva/jwt-go/v4 library:
reject malformed encodings, obtain the verification key from the
callback (wrapping a callback error), then validate the temporal claims
and the signature.  Audience options are not modelled; no audited claim
depends on them. -/
def ParseWithClaims (tok : TokenRepr)
    (keyfunc : TokenRepr → Except AuthErr String) : Except JwtParseErr ClaimsData :=
  if !tok.wellFormed then .error .malformed
  else
    match keyfunc tok with
    | .error e => .error (.keyfuncFailed e)
    | .ok key =>
      if tok.expired then .error .expired
      else if tok.notYetValid then .error .notValidYet
      else if key ≠ tok.sigKey then .error .sigInvalid
      else .ok tok.claims

/-! ## Execution context (package api context keys)

context.Context is an immutable chain of key/value pairs; WithValue
derives a new context whose lookup shadows older entries.  Only the
three api-package keys matter to the audited claims. -/

inductive ContextKey where
  | jwtToken
  | authClaims
  | apikey
deriving DecidableEq, Repr

/-- A context entry value: the Go values stored under the api keys are
either strings or claims objects.  The Go type assertion .(string)
succeeds exactly on the str constructor. -/
inductive CtxVal where
  | str (s : String)
  | claims (c : ClaimsData)
deriving DecidableEq, Repr

abbrev Context : Type := List (ContextKey × CtxVal)

/-- ctx.Value(k): the most recent entry for k, if any. -/
def ctxValue (ctx : Context) (k : ContextKey) : Option CtxVal :=
  (List.find? (fun kv => kv.1 == k) ctx).map (fun kv => kv.2)

/-- context.WithValue: derive a new context with one more entry. -/
def withValue (ctx : Context) (k : ContextKey) (v : CtxVal) : Context :=
  (k, v) :: ctx

/-- Whether a looked-up context value is a string (the Go assertion
tokenString, ok := ctx.Value(key).(string)). -/
def isTokenStr : Option CtxVal → Bool
  | some (.str _) => true
  | _ => false

/-! ## Endpoint composition (endpoint.go, middleware.go) -/

/-- Endpoint[I, O]: func(context.Context, I) (O, error).  The error
result is restricted to the closed auth taxonomy, which is the only
error family the audited middlewares produce. -/
abbrev Endpoint (I O : Type) : Type := Context → I → O × Option AuthErr

/-- Middleware[I, O]: func(Endpoint[I, O]) Endpoint[I, O]. -/
abbrev Middleware (I O : Type) : Type := Endpoint I O → Endpoint I O

/-- The reverse for-loop shared by Chain and Endpoint.Chain:
for i := len(others)-1; i >= 0; i-- { next = others[i](next) }. -/
def chainOthers {I O : Type} (others : List (Middleware I O))
    (next : Endpoint I O) : Endpoint I O :=
  others.foldr (fun m acc => m acc) next

/-- Chain (middleware.go): compose one mandatory outer middleware with
a variadic tail, first-declared outermost. -/
def Chain {I O : Type} (outer : Middleware I O) (others : List (Middleware I O)) :
    Middleware I O :=
  fun next => outer (chainOthers others next)

/-- Endpoint.Chain (endpoint.go): the method form of the same loop. -/
def Endpoint.Chain {I O : Type} (ep : Endpoint I O) (outer : Middleware I O)
    (others : List (Middleware I O)) : Endpoint I O :=
  outer (chainOthers others ep)

/-- The nested application M0(M1(...Mn(h))) of the specification
composition contract, written as the spec words it: empty list is the
identity composition. -/
def composeNested {I O : Type} : List (Middleware I O) → Endpoint I O → Endpoint I O
  | [], h => h
  | m :: rest, h => m (composeNested rest h)

/-! ## Token creation (CreateToken) -/

/-- math/rand Intn(n): panics (none) unless n > 0, else a draw in
[0, n).  The process-wide source is injected as the draw rnd. -/
def goIntn (rnd : Nat) (n : Int) : Option Nat :=
  if n ≤ 0 then none else some (rnd % n.toNat)

/-- The key-index selection of CreateToken (auth_middleware.go):
n := r.Intn(len(keys) - 1), then the fallback
if n < 0 || n > len(keys)-1 { n = 1 }. -/
def CreateTokenSelect (rnd : Nat) (keys : List String) : Option Nat :=
  match goIntn rnd ((keys.length : Int) - 1) with
  | none => none
  | some n0 =>
    let n := if (n0 : Int) < 0 ∨ (n0 : Int) > (keys.length : Int) - 1 then 1 else n0
    some n

/-- CreateToken stamps strconv.Itoa of the selected index into the
token header as "kid" and signs with keys[n]; the header stamp and the
signing key are the observable outcome (none models the panic of the
selection). -/
def CreateTokenKid (rnd : Nat) (keys : List String) : Option (String × String) :=
  (CreateTokenSelect rnd keys).map (fun n => (toString n, keys.getD n ""))

/-! ## Key lookup (getKey) -/

/-- The decimal value of a nonempty all-digit character list (the
digit-scanning core of strconv.Atoi). -/
def digitsToNat? (l : List Char) : Option Nat :=
  if l ≠ [] ∧ l.all Char.isDigit then
    some (l.foldl (fun acc c => acc * 10 + (c.toNat - 48)) 0)
  else none

/-- strconv.Atoi: an optional sign followed by a nonempty digit string
and nothing else.  Integer overflow is not modelled; the kid values at
issue are small. -/
def goAtoi (s : String) : Option Int :=
  match s.data with
  | '-' :: rest => (digitsToNat? rest).map (fun n => -(n : Int))
  | '+' :: rest => (digitsToNat? rest).map (fun n => (n : Int))
  | l => (digitsToNat? l).map (fun n => (n : Int))

/-- The outcome of getKey: a verification key, a returned validation
error, or a Go runtime panic. -/
inductive GetKeyResult where
  | ok (key : String)
  | err (e : AuthErr)
  | panic
deriving DecidableEq, Repr

/-- getKey (auth_middleware.go) on the kid header string: parse with
strconv.Atoi, check only n > len(keys)-1, then evaluate keys[n] — which
panics for a negative index, as the Go index operation does. -/
def getKey (kid : String) (keys : List String) : GetKeyResult :=
  match goAtoi kid with
  | none => .err .kidParseFailed
  | some n =>
    if n > (keys.length : Int) - 1 then .err .kidOutOfRange
    else if n < 0 then .panic
    else
      match keys.get? n.toNat with
      | some key => .ok key
      | none => .panic

/-- The kid extraction of getKey: token.Header["kid"].(string) is an
unchecked type assertion, panicking when the header is absent. -/
def getKeyFromToken (tok : TokenRepr) (keys : List String) : GetKeyResult :=
  match tok.kidHeader with
  | none => .panic
  | some kid => getKey kid keys

/-! ## The JWT auth endpoint middleware (WithJWTAuthEPMiddleware)

The middleware reads the token string from the context, parses it with
the algorithm-checking key callback, translates the parser error
classes through the type switch of the source, and on success invokes
the wrapped endpoint with the claims attached to a derived context.
decode is the denotation of token strings (section on TokenRepr); the
jwt-go v4 parser leaves token.Valid true exactly when it returns no
error, so the token.Valid re-check of the source is unreachable and has
no separate branch in the model. -/
def WithJWTAuthEPMiddleware {I O : Type} [Inhabited O]
    (decode : String → TokenRepr)
    (keyFn : TokenRepr → Except AuthErr String)
    (ep : Endpoint I O) : Endpoint I O :=
  fun ctx request =>
    match ctxValue ctx .jwtToken with
    | some (.str tokenString) =>
      let keyfunc : TokenRepr → Except AuthErr String := fun token =>
        if token.method ≠ .hs256 then .error .unexpectedSigningMethod
        else keyFn token
      match ParseWithClaims (decode tokenString) keyfunc with
      | .error .malformed => (default, some .tokenMalformed)
      | .error .expired => (default, some .tokenExpired)
      | .error .notValidYet => (default, some .tokenNotActive)
      | .error _ => (default, some .notAuthorized)
      | .ok claims => ep (withValue ctx .authClaims (.claims claims)) request
    | _ => (default, some .tokenContextMissing)

/-! ## HTTP requests and the transport-level auth middlewares -/

/-- The slice of net/http Request the middlewares read: the header map
and the context.  Header lookup is case-insensitive, modelling MIME
canonicalization. -/
structure Request where
  headers : List (String × String)
  ctx : Context
deriving DecidableEq, Repr

/-- strings.ToUpper restricted to the simple per-character mapping (Go
byte strings are modelled one Char per byte). -/
def goToUpper (s : String) : String :=
  ⟨s.data.map Char.toUpper⟩

/-- strings.ToLower, likewise per character. -/
def goToLower (s : String) : String :=
  ⟨s.data.map Char.toLower⟩

/-- The byte-slice prefix s[0:n] of a Go string. -/
def goTake (s : String) (n : Nat) : String :=
  ⟨s.data.take n⟩

/-- The byte-slice suffix s[n:] of a Go string. -/
def goDrop (s : String) (n : Nat) : String :=
  ⟨s.data.drop n⟩

def headerGet (r : Request) (key : String) : String :=
  ((List.find? (fun kv => goToLower kv.1 == goToLower key) r.headers).map
    (fun kv => kv.2)).getD ""

/-- r.WithContext(ctx): a derived request; the receiver is unchanged. -/
def Request.withContext (r : Request) (ctx : Context) : Request :=
  { r with ctx := ctx }

/-- TokenFromHeader: the Bearer scheme check on the Authorization
header.  Go indexes bytes; characters stand in for bytes, exact for the
ASCII header data at issue. -/
def TokenFromHeader (r : Request) : String :=
  let bearer := headerGet r "Authorization"
  if bearer.length > 7 ∧ goToUpper (goTake bearer 7) = "BEARER " then goDrop bearer 7
  else ""

/-- ApikeyFromHeader: the X-Api-Key header. -/
def ApikeyFromHeader (r : Request) : String :=
  headerGet r "X-Api-Key"

/-- Case-insensitive string equality as the specification words it
(for the Bearer scheme comparison). -/
def caseInsensitiveEq (s t : String) : Prop :=
  goToUpper s = goToUpper t

instance (s t : String) : Decidable (caseInsensitiveEq s t) :=
  inferInstanceAs (Decidable (goToUpper s = goToUpper t))

/-- ParseJwtError: the parser-error-to-message translation of the HTTP
JWT middleware; the same three specific cases as the endpoint
middleware, all else the generic message. -/
def ParseJwtError : JwtParseErr → String
  | .malformed => "JWT Token is malformed"
  | .expired => "JWT Token is expired"
  | .notValidYet => "token is not valid yet"
  | _ => "not authorized to access this resource"

/-- MakeHttpJwtMiddleware: reject on an empty extracted token, parse
with the algorithm-checking callback (sigMethod is HS256 unless
overridden through options), then hand the next handler a request whose
context carries the token string and the validated claims.  A handler
either produces the next value or an http.Error status/message pair. -/
def MakeHttpJwtMiddleware {α : Type}
    (decode : String → TokenRepr)
    (keyFn : TokenRepr → Except AuthErr String)
    (sigMethod : SigningMethod)
    (next : Request → α) (r : Request) : Except (Nat × String) α :=
  let tokenString := TokenFromHeader r
  if tokenString = "" then .error (401, "Not Authorized")
  else
    match ParseWithClaims (decode tokenString)
        (fun token =>
          if token.method ≠ sigMethod then .error .unexpectedSigningMethod
          else keyFn token) with
    | .error e => .error (401, ParseJwtError e)
    | .ok claims =>
      let ctx := withValue (withValue r.ctx .jwtToken (.str tokenString))
          .authClaims (.claims claims)
      .ok (next (r.withContext ctx))

/-- MakeHttpApikeyMiddleware: extract the X-Api-Key header, reject when
absent or when the injected validation returns nothing, else invoke
next.  The two r.WithContext(...) calls of the source discard their
derived requests (they are not assigned back to r); the model keeps the
discarded derivations visible. -/
def MakeHttpApikeyMiddleware {α : Type}
    (validateFn : String → Option ClaimsData)
    (next : Request → α) (r : Request) : Except (Nat × String) α :=
  let apikey := ApikeyFromHeader r
  if apikey = "" then .error (401, "Apikey required. Authorized")
  else
    match validateFn apikey with
    | none => .error (401, "Apikey Validation failed. Not Authorized")
    | some claims =>
      let _ := r.withContext (withValue r.ctx .authClaims (.claims claims))
      let _ := r.withContext (withValue r.ctx .apikey (.str apikey))
      .ok (next r)

/-! ## Multipart decoders

A part of a multipart body: form name, optional filename (empty marks
a plain value field), the Content-Type header, and the full byte
content, one Char per byte.  Read errors of the underlying body are not
modelled: parts carry their complete content. -/

structure Part where
  formName : String
  fileName : String
  contentType : String
  content : List Char
deriving DecidableEq, Repr, Inhabited

/-- The fixed in-memory cap of the single-file stream decoder:
maxMemory := int64(5 * 1024 * 1024). -/
def maxMemorySingle : Nat := 5 * 1024 * 1024

/-- The fixed in-memory form-value cap of CreateMultipartStreamDecoder:
maxDataMemory := int64(5 * 1024 * 1024). -/
def maxDataMemory : Nat := 5 * 1024 * 1024

def HttpContentTypeJson : String := "application/json"

/-- The file part handed to AddFileStream in single-file mode: the pipe
reader delivers the full part content. -/
structure FileStreamPayload where
  fileName : String
  contentType : String
  content : List Char
deriving DecidableEq, Repr, Inhabited

/-- The observable outcome of the single-file decode: the captured form
values handed to BindFormData (binding itself is an external reflection
helper) and the first file part, if any. -/
structure SingleFileResult where
  formData : List (String × List Char)
  file : Option FileStreamPayload
deriving DecidableEq, Repr, Inhabited

/-- The part loop of CommonFileUploadStreamDecoder (single-file mode):
value parts are copied with io.CopyN(&b, part, maxMemory+1) and the
decode fails when maxMemory - n < 0; the loop breaks at the first
file-bearing part. -/
def commonFileUploadLoop :
    List Part → List (String × List Char) → Except GoErr SingleFileResult
  | [], formData => .ok ⟨formData, none⟩
  | part :: rest, formData =>
    if part.fileName = "" then
      let b := part.content.take (maxMemorySingle + 1)
      let n := min part.content.length (maxMemorySingle + 1)
      if maxMemorySingle < n then .error errSingleFileMessageTooLarge
      else commonFileUploadLoop rest (formData ++ [(part.formName, b)])
    else
      .ok ⟨formData, some ⟨part.fileName, part.contentType, part.content⟩⟩

/-- CommonFileUploadStreamDecoder, single-file mode: iterate the parts
in arrival order until the first file part, then bind. -/
def CommonFileUploadStreamDecoder (parts : List Part) : Except GoErr SingleFileResult :=
  commonFileUploadLoop parts []

/-- The observable outcome of CreateMultipartStreamDecoder: captured
form values, JSON-typed value parts kept for the second binding pass,
and the SetFileStream calls (form name, file name, content) in order. -/
structure MultipartStreamResult where
  formData : List (String × List Char)
  jsonData : List (List Char)
  fileStreams : List (String × String × List Char)
deriving DecidableEq, Repr, Inhabited

/-- The part loop of CreateMultipartStreamDecoder: every part is read;
value parts are capped at maxDataMemory and routed to the JSON list or
the form data by Content-Type; file parts are capped at the
per-decoder maxFileSize. -/
def createMultipartLoop (maxFileSize : Nat) :
    List Part → MultipartStreamResult → Except GoErr MultipartStreamResult
  | [], acc => .ok acc
  | part :: rest, acc =>
    if part.fileName = "" then
      let b := part.content.take (maxDataMemory + 1)
      let n := min part.content.length (maxDataMemory + 1)
      if maxDataMemory < n then .error errMultipartMessageTooLarge
      else if part.contentType = HttpContentTypeJson then
        createMultipartLoop maxFileSize rest { acc with jsonData := acc.jsonData ++ [b] }
      else
        createMultipartLoop maxFileSize rest
          { acc with formData := acc.formData ++ [(part.formName, b)] }
    else
      let b := part.content.take (maxFileSize + 1)
      let n := min part.content.length (maxFileSize + 1)
      if maxFileSize < n then .error errMultipartFileTooLarge
      else createMultipartLoop maxFileSize rest
        { acc with fileStreams := acc.fileStreams ++ [(part.formName, part.fileName, b)] }

/-- CreateMultipartStreamDecoder(maxFileSize): iterate every part of
the body; any cap violation fails the whole decode and no object is
produced. -/
def CreateMultipartStreamDecoder (maxFileSize : Nat) (parts : List Part) :
    Except GoErr MultipartStreamResult :=
  createMultipartLoop maxFileSize parts ⟨[], [], []⟩

/-! ## Concrete instruments and sample data used by the theorems -/

/-- A labelling middleware: its pre-logic appends its tag to the
request, exposing invocation order. -/
def tagMW (t : String) : Middleware (List String) (List String) :=
  fun ep ctx req => ep ctx (req ++ [t])

/-- A handler that returns the request it receives, exposing what the
surrounding middlewares did to it. -/
def recordEP : Endpoint (List String) (List String) :=
  fun _ req => (req, none)

/-- A file-bearing multipart part. -/
def samplePartFile : Part :=
  ⟨"doc", "doc.bin", "application/octet-stream", ['a', 'b', 'c', 'd']⟩

/-- A form-value part one byte over the 5 MiB in-memory cap. -/
def samplePartBigField : Part :=
  ⟨"big", "", "text/plain", List.replicate (maxDataMemory + 1) 'q'⟩

/-- A small form-value part, well within the cap. -/
def samplePartSmallField : Part :=
  ⟨"sheet", "", "text/plain", ['Q', '1']⟩

/-- A request carrying an API key header and an empty context. -/
def sampleApikeyRequest : Request :=
  ⟨[("X-Api-Key", "secret-key")], []⟩

/-- A request whose Authorization header uses a non-Bearer scheme. -/
def sampleBasicAuthRequest : Request :=
  ⟨[("Authorization", "Basic abc")], []⟩

/-- A well-formed token view signed with RS256 rather than the
configured HS256. -/
def sampleRS256Token : TokenRepr :=
  ⟨true, .other "RS256", some "0", false, false, "secret", ⟨"payload"⟩⟩

/-! # Theorems settling the claims -/

/-- C6 counterexample: the translator sends the token-context-missing
error to 500 (the fall-through default), not to 401 as claimed: its
switch has no case for it. -/
theorem claim_C6_counterexample : Err2code ErrTokenContextMissing = 500 ∧ (500 : Nat) ≠ 401 := by
  decide

/-- C6 (amended): Err2code sends token-expired, token-invalid,
token-malformed and token-not-active to 401; token-context-missing and
unexpected-signing-method have no case and fall through to 500; the
too-large decoder errors, wrapping the shared bad-request sentinel, map
to 400 (the bad-request class). -/
theorem claim_C6_err2code_mapping :
    Err2code ErrTokenExpired = 401
    ∧ Err2code ErrTokenInvalid = 401
    ∧ Err2code ErrTokenMalformed = 401
    ∧ Err2code ErrTokenNotActive = 401
    ∧ Err2code ErrTokenContextMissing = 500
    ∧ Err2code ErrUnexpectedSigningMethod = 500
    ∧ Err2code errMultipartMessageTooLarge = 400
    ∧ Err2code errMultipartFileTooLarge = 400 := by
  decide

/-- C4: getKey parses "kid" with strconv.Atoi and rejects an index
beyond the end of the key list, but its bounds check has no lower
bound: a negative numeric kid reaches the index expression keys[n] and
panics instead of returning a validation error.  Non-numeric and
too-large kids are rejected as claimed, and an in-range kid returns the
secret at that index; a token without a kid header panics in the
unchecked type assertion. -/
theorem claim_C4_getKey_negative_kid_panics :
    getKey "-1" ["k0", "k1"] = .panic
    ∧ getKey "2" ["k0", "k1"] = .err .kidOutOfRange
    ∧ getKey "x" ["k0", "k1"] = .err .kidParseFailed
    ∧ getKey "1" ["k0", "k1"] = .ok "k1"
    ∧ getKeyFromToken ⟨true, .hs256, none, false, false, "s", ⟨"c"⟩⟩ ["k0"] = .panic := by
  decide

/-- C1: CreateToken draws its key index with rand.Intn(len(keys)-1).
For a single-key registry the draw is Intn(0), which panics — the
selection is never the claimed index 0.  For two or more keys the draw
lies in [0, len(keys)-2], so the last key is never selected and the
fallback clamp (which would set the index to 1, not into the valid
range) is unreachable; the stamped "kid" likewise never names the last
key. -/
theorem claim_C1_create_token_selection :
    (∀ rnd : Nat, CreateTokenSelect rnd ["key0"] = none)
    ∧ (∀ (rnd : Nat) (keys : List String), 2 ≤ keys.length →
        ∃ n, CreateTokenSelect rnd keys = some n ∧ n + 2 ≤ keys.length)
    ∧ CreateTokenKid 0 ["key0"] = none := by
  refine ⟨fun rnd => rfl, ?_, rfl⟩
  intro rnd keys hlen
  have hpos : ¬ ((keys.length : Int) - 1 ≤ 0) := by omega
  have hmod : rnd % (keys.length - 1) < keys.length - 1 :=
    Nat.mod_lt _ (by omega)
  have htn : ((keys.length : Int) - 1).toNat = keys.length - 1 := by omega
  have hc : ¬ (((rnd % (keys.length - 1) : Nat) : Int) < 0
      ∨ ((rnd % (keys.length - 1) : Nat) : Int) > (keys.length : Int) - 1) := by
    push_cast
    omega
  refine ⟨rnd % (keys.length - 1), ?_, by omega⟩
  simp only [CreateTokenSelect, goIntn, hpos, if_false, htn, hc]

/-- C1 witness: the theorem at a one-key and at a three-key registry. -/
theorem claim_C1_create_token_selection_witness :
    CreateTokenSelect 7 ["key0"] = none
    ∧ (∃ n, CreateTokenSelect 7 ["k0", "k1", "k2"] = some n ∧ n + 2 ≤ 3) :=
  ⟨claim_C1_create_token_selection.1 7,
   claim_C1_create_token_selection.2.1 7 ["k0", "k1", "k2"] (by decide)⟩

/-- A shared step: the reverse for-loop of Chain and Endpoint.Chain
computes exactly the nested application of the middleware list. -/
theorem chainOthers_eq_composeNested {I O : Type} (ms : List (Middleware I O))
    (h : Endpoint I O) : chainOthers ms h = composeNested ms h := by
  induction ms with
  | nil => rfl
  | cons m rest ih =>
    show m (chainOthers rest h) = m (composeNested rest h)
    rw [ih]

/-- C3: composing a declared middleware list around a handler equals
the nested application M0(M1(...Mn(h))) — both for the Chain helper and
the Endpoint.Chain method — the empty tail composes to the identity on
handlers, and at invocation the first-declared middleware runs first
(its tag lands first in the trace). -/
theorem claim_C3_chain_is_nested_application :
    (∀ (I O : Type) (outer : Middleware I O) (others : List (Middleware I O))
        (h : Endpoint I O),
      Chain outer others h = composeNested (outer :: others) h)
    ∧ (∀ (I O : Type) (ep : Endpoint I O) (outer : Middleware I O)
        (others : List (Middleware I O)),
      Endpoint.Chain ep outer others = composeNested (outer :: others) ep)
    ∧ (∀ (I O : Type) (h : Endpoint I O), composeNested [] h = h ∧ chainOthers [] h = h)
    ∧ (Chain (tagMW "M0") [tagMW "M1", tagMW "M2"] recordEP [] []).1 = ["M0", "M1", "M2"] := by
  refine ⟨?_, ?_, fun I O h => ⟨rfl, rfl⟩, by rfl⟩
  · intro I O outer others h
    show outer (chainOthers others h) = outer (composeNested others h)
    rw [chainOthers_eq_composeNested]
  · intro I O ep outer others
    show outer (chainOthers others ep) = outer (composeNested others ep)
    rw [chainOthers_eq_composeNested]

/-- C2 counterexample: a well-formed token signed with RS256, presented
to the JWT endpoint middleware, is rejected with the generic
not-authorized error, not with the unexpected-signing-method error the
claim names: the error type switch has no case for the wrapped keyfunc
failure, so the specific cause is collapsed. -/
theorem claim_C2_counterexample :
    WithJWTAuthEPMiddleware (fun _ => sampleRS256Token) (fun _ => .ok "secret")
      (fun _ _ => (7, none) : Endpoint Nat Nat)
      [(ContextKey.jwtToken, CtxVal.str "tok")] 0
      = (0, some AuthErr.notAuthorized)
    ∧ AuthErr.notAuthorized ≠ AuthErr.unexpectedSigningMethod := by
  exact ⟨rfl, by decide⟩

/-- C2 (amended): every well-formed token whose signing method differs
from the configured HS256 fails validation, but with the generic
not-authorized result — the unexpected-signing-method error raised
inside the key callback is swallowed by the error translation — and the
wrapped handler is never invoked (the outcome is the same for every
handler). -/
theorem claim_C2_wrong_alg_generic_error {I O : Type} [Inhabited O]
    (decode : String → TokenRepr) (keyFn : TokenRepr → Except AuthErr String)
    (ctx : Context) (req : I) (tokenString : String)
    (h1 : ctxValue ctx .jwtToken = some (.str tokenString))
    (h2 : (decode tokenString).wellFormed = true)
    (h3 : (decode tokenString).method ≠ .hs256) :
    ∀ ep : Endpoint I O,
      WithJWTAuthEPMiddleware decode keyFn ep ctx req = (default, some .notAuthorized) := by
  intro ep
  simp only [WithJWTAuthEPMiddleware, h1]
  simp only [ParseWithClaims, h2, Bool.not_true, Bool.false_eq_true, if_false, if_pos h3]

/-- C2 witness: the amended theorem applied to the RS256 sample token. -/
theorem claim_C2_wrong_alg_generic_error_witness :
    WithJWTAuthEPMiddleware (fun _ => sampleRS256Token) (fun _ => .ok "secret")
      (fun _ _ => (7, none) : Endpoint Nat Nat)
      [(ContextKey.jwtToken, CtxVal.str "tok")] 0
      = (default, some AuthErr.notAuthorized) :=
  claim_C2_wrong_alg_generic_error (fun _ => sampleRS256Token) (fun _ => .ok "secret")
    [(ContextKey.jwtToken, CtxVal.str "tok")] 0 "tok" rfl rfl (by decide)
    (fun _ _ => (7, none))

/-- C5: when the context carries no string under the JWT-token key, the
JWT endpoint middleware returns the zero output value with the
token-context-missing error — an error distinct from token-invalid —
and the outcome does not depend on the wrapped handler, which is
therefore never invoked. -/
theorem claim_C5_missing_token_context {I O : Type} [Inhabited O]
    (decode : String → TokenRepr) (keyFn : TokenRepr → Except AuthErr String)
    (ctx : Context) (req : I)
    (h : isTokenStr (ctxValue ctx .jwtToken) = false) :
    (∀ ep : Endpoint I O,
      WithJWTAuthEPMiddleware decode keyFn ep ctx req = (default, some .tokenContextMissing))
    ∧ (∀ ep ep' : Endpoint I O,
      WithJWTAuthEPMiddleware decode keyFn ep ctx req
        = WithJWTAuthEPMiddleware decode keyFn ep' ctx req)
    ∧ AuthErr.tokenContextMissing ≠ AuthErr.tokenInvalid := by
  have key : ∀ ep : Endpoint I O,
      WithJWTAuthEPMiddleware decode keyFn ep ctx req = (default, some .tokenContextMissing) := by
    intro ep
    cases hce : ctxValue ctx ContextKey.jwtToken with
    | none => simp only [WithJWTAuthEPMiddleware, hce]
    | some v =>
      cases v with
      | str s =>
        rw [hce] at h
        simp [isTokenStr] at h
      | claims c => simp only [WithJWTAuthEPMiddleware, hce]
  exact ⟨key, fun ep ep' => by rw [key ep, key ep'], by decide⟩

/-- C5 witness: an empty context with a counting handler; the handler
count never appears in the outcome. -/
theorem claim_C5_missing_token_context_witness :
    WithJWTAuthEPMiddleware (fun _ => default) (fun _ => .ok "k")
      (fun _ _ => (1, none) : Endpoint Nat Nat) [] 0
      = (0, some AuthErr.tokenContextMissing) :=
  (claim_C5_missing_token_context (fun _ => default) (fun _ => .ok "k") [] 0 (by decide)).1
    (fun _ _ => (1, none))

/-- C9: on an accepted API key the middleware invokes next with the
request unchanged — the derived requests built by r.WithContext are
discarded — so the context seen by the next handler carries neither
the validated claims nor the API-key string (both lookups are none on
the sample request that next receives). -/
theorem claim_C9_apikey_context_not_propagated :
    (∀ (α : Type) (validateFn : String → Option ClaimsData) (next : Request → α)
        (r : Request) (c : ClaimsData),
      ApikeyFromHeader r ≠ "" → validateFn (ApikeyFromHeader r) = some c →
      MakeHttpApikeyMiddleware validateFn next r = .ok (next r))
    ∧ ctxValue sampleApikeyRequest.ctx .authClaims = none
    ∧ ctxValue sampleApikeyRequest.ctx .apikey = none
    ∧ ApikeyFromHeader sampleApikeyRequest = "secret-key" := by
  refine ⟨?_, by decide, by decide, by decide⟩
  intro α validateFn next r c h1 h2
  simp only [MakeHttpApikeyMiddleware, h2, if_neg h1]

/-- C9 witness: the accepted sample request reaches the identity
handler unchanged. -/
theorem claim_C9_apikey_context_not_propagated_witness :
    MakeHttpApikeyMiddleware (fun _ => some ⟨"c"⟩) (fun r => r) sampleApikeyRequest
      = .ok sampleApikeyRequest :=
  claim_C9_apikey_context_not_propagated.1 Request (fun _ => some ⟨"c"⟩) (fun r => r)
    sampleApikeyRequest ⟨"c"⟩ (by decide) rfl

/-- C10: TokenFromHeader returns the suffix after the first 7
characters of the Authorization header exactly when that header is
longer than 7 characters and its first 7 characters case-insensitively
equal the Bearer prefix; otherwise it returns the empty string, and on
an empty extracted token the HTTP JWT middleware rejects with 401
without invoking the next handler. -/
theorem claim_C10_token_from_header (r : Request) :
    (TokenFromHeader r =
      if 7 < (headerGet r "Authorization").length
          ∧ caseInsensitiveEq (goTake (headerGet r "Authorization") 7) "BEARER "
      then goDrop (headerGet r "Authorization") 7 else "")
    ∧ (∀ (α : Type) (decode : String → TokenRepr)
        (keyFn : TokenRepr → Except AuthErr String) (sigMethod : SigningMethod)
        (next : Request → α),
      TokenFromHeader r = "" →
      MakeHttpJwtMiddleware decode keyFn sigMethod next r = .error (401, "Not Authorized")) := by
  constructor
  · simp only [TokenFromHeader]
    refine if_congr ?_ rfl rfl
    unfold caseInsensitiveEq
    rw [show goToUpper "BEARER " = "BEARER " from by decide]
  · intro α decode keyFn sigMethod next h
    simp only [MakeHttpJwtMiddleware]
    rw [if_pos h]

/-- C10 witness: a Basic-scheme header yields the empty token and the
JWT middleware rejects the request outright. -/
theorem claim_C10_token_from_header_witness :
    TokenFromHeader sampleBasicAuthRequest = ""
    ∧ MakeHttpJwtMiddleware (fun _ => default) (fun _ => .ok "k") .hs256 (fun r => r)
        sampleBasicAuthRequest = .error (401, "Not Authorized") :=
  ⟨by decide,
   (claim_C10_token_from_header sampleBasicAuthRequest).2 Request (fun _ => default)
     (fun _ => .ok "k") .hs256 (fun r => r) (by decide)⟩

/-- When some value part of the body is over the in-memory cap, the
part loop of CreateMultipartStreamDecoder never reaches the end of the
list: some cap check fails first. -/
theorem createMultipartLoop_fails (maxFileSize : Nat) (parts : List Part) :
    ∀ acc : MultipartStreamResult,
      (∃ p ∈ parts, p.fileName = "" ∧ maxDataMemory < p.content.length) →
      ∃ e, createMultipartLoop maxFileSize parts acc = .error e := by
  induction parts with
  | nil =>
    intro acc h
    rcases h with ⟨p, hp, _⟩
    exact absurd hp (List.not_mem_nil p)
  | cons p rest ih =>
    intro acc h
    rcases h with ⟨q, hq, hqf, hqlen⟩
    by_cases hf : p.fileName = ""
    · by_cases hover : maxDataMemory < min p.content.length (maxDataMemory + 1)
      · exact ⟨errMultipartMessageTooLarge, by
          simp only [createMultipartLoop, if_pos hf, if_pos hover]⟩
      · have hqrest : q ∈ rest := by
          rcases List.mem_cons.mp hq with hqp | hqr
          · subst hqp
            exact absurd (by omega) hover
          · exact hqr
        by_cases hj : p.contentType = HttpContentTypeJson
        · rcases ih _ ⟨q, hqrest, hqf, hqlen⟩ with ⟨e, he⟩
          exact ⟨e, by simp only [createMultipartLoop, if_pos hf, if_neg hover, if_pos hj]; exact he⟩
        · rcases ih _ ⟨q, hqrest, hqf, hqlen⟩ with ⟨e, he⟩
          exact ⟨e, by simp only [createMultipartLoop, if_pos hf, if_neg hover, if_neg hj]; exact he⟩
    · have hqrest : q ∈ rest := by
        rcases List.mem_cons.mp hq with hqp | hqr
        · subst hqp; exact absurd hqf hf
        · exact hqr
      by_cases hover : maxFileSize < min p.content.length (maxFileSize + 1)
      · exact ⟨errMultipartFileTooLarge, by
          simp only [createMultipartLoop, if_neg hf, if_pos hover]⟩
      · rcases ih _ ⟨q, hqrest, hqf, hqlen⟩ with ⟨e, he⟩
        exact ⟨e, by simp only [createMultipartLoop, if_neg hf, if_neg hover]; exact he⟩

/-- When some value part is over the in-memory cap and every file part
is within the file cap, the decode fails specifically with the
payload-too-large error. -/
theorem createMultipartLoop_field_error (maxFileSize : Nat) (parts : List Part) :
    ∀ acc : MultipartStreamResult,
      (∃ p ∈ parts, p.fileName = "" ∧ maxDataMemory < p.content.length) →
      (∀ p ∈ parts, p.fileName ≠ "" → p.content.length ≤ maxFileSize) →
      createMultipartLoop maxFileSize parts acc = .error errMultipartMessageTooLarge := by
  induction parts with
  | nil =>
    intro acc h _
    rcases h with ⟨p, hp, _⟩
    exact absurd hp (List.not_mem_nil p)
  | cons p rest ih =>
    intro acc h hfiles
    rcases h with ⟨q, hq, hqf, hqlen⟩
    have hfilesRest : ∀ p ∈ rest, p.fileName ≠ "" → p.content.length ≤ maxFileSize :=
      fun x hx => hfiles x (List.mem_cons_of_mem p hx)
    by_cases hf : p.fileName = ""
    · by_cases hover : maxDataMemory < min p.content.length (maxDataMemory + 1)
      · simp only [createMultipartLoop, if_pos hf, if_pos hover]
      · have hqrest : q ∈ rest := by
          rcases List.mem_cons.mp hq with hqp | hqr
          · subst hqp
            exact absurd (by omega) hover
          · exact hqr
        by_cases hj : p.contentType = HttpContentTypeJson
        · simp only [createMultipartLoop, if_pos hf, if_neg hover, if_pos hj]
          exact ih _ ⟨q, hqrest, hqf, hqlen⟩ hfilesRest
        · simp only [createMultipartLoop, if_pos hf, if_neg hover, if_neg hj]
          exact ih _ ⟨q, hqrest, hqf, hqlen⟩ hfilesRest
    · have hqrest : q ∈ rest := by
        rcases List.mem_cons.mp hq with hqp | hqr
        · subst hqp; exact absurd hqf hf
        · exact hqr
      have hover : ¬ (maxFileSize < min p.content.length (maxFileSize + 1)) := by
        have := hfiles p (List.mem_cons_self p rest) hf
        omega
      simp only [createMultipartLoop, if_neg hf, if_neg hover]
      exact ih _ ⟨q, hqrest, hqf, hqlen⟩ hfilesRest

/-- Every field value a successful multipart decode captures is the
complete content of a value part of the body (never a truncation). -/
theorem createMultipartLoop_formData (maxFileSize : Nat) (parts : List Part) :
    ∀ (acc res : MultipartStreamResult),
      createMultipartLoop maxFileSize parts acc = .ok res →
      ∀ nv ∈ res.formData,
        nv ∈ acc.formData
        ∨ ∃ p ∈ parts, p.fileName = "" ∧ p.formName = nv.1 ∧ p.content = nv.2 := by
  induction parts with
  | nil =>
    intro acc res h nv hnv
    simp only [createMultipartLoop, Except.ok.injEq] at h
    subst h
    exact Or.inl hnv
  | cons p rest ih =>
    intro acc res h nv hnv
    simp only [createMultipartLoop] at h
    by_cases hf : p.fileName = ""
    · rw [if_pos hf] at h
      by_cases hover : maxDataMemory < min p.content.length (maxDataMemory + 1)
      · rw [if_pos hover] at h
        simp at h
      · rw [if_neg hover] at h
        have hfull : p.content.take (maxDataMemory + 1) = p.content :=
          List.take_of_length_le (by omega)
        by_cases hj : p.contentType = HttpContentTypeJson
        · rw [if_pos hj] at h
          rcases ih _ _ h nv hnv with hacc | ⟨q, hq, hrest⟩
          · exact Or.inl hacc
          · exact Or.inr ⟨q, List.mem_cons_of_mem p hq, hrest⟩
        · rw [if_neg hj] at h
          rcases ih _ _ h nv hnv with hacc | ⟨q, hq, hrest⟩
          · rcases List.mem_append.mp hacc with h1 | h2
            · exact Or.inl h1
            · have hnvp : nv = (p.formName, p.content.take (maxDataMemory + 1)) :=
                List.mem_singleton.mp h2
              refine Or.inr ⟨p, List.mem_cons_self p rest, hf, ?_, ?_⟩
              · rw [hnvp]
              · rw [hnvp, hfull]
          · exact Or.inr ⟨q, List.mem_cons_of_mem p hq, hrest⟩
    · rw [if_neg hf] at h
      by_cases hover : maxFileSize < min p.content.length (maxFileSize + 1)
      · rw [if_pos hover] at h
        simp at h
      · rw [if_neg hover] at h
        rcases ih _ _ h nv hnv with hacc | ⟨q, hq, hrest⟩
        · exact Or.inl hacc
        · exact Or.inr ⟨q, List.mem_cons_of_mem p hq, hrest⟩

/-- C7 counterexample: this body contains a value part over the 5 MiB
cap, yet the decode fails with the file-too-large error — the preceding
file part violates its own cap first — not with the payload-too-large
error the claim names for every such body. -/
theorem claim_C7_counterexample :
    samplePartBigField ∈ [samplePartFile, samplePartBigField]
    ∧ samplePartBigField.fileName = ""
    ∧ maxDataMemory < samplePartBigField.content.length
    ∧ CreateMultipartStreamDecoder 3 [samplePartFile, samplePartBigField]
        = .error errMultipartFileTooLarge
    ∧ errMultipartFileTooLarge ≠ errMultipartMessageTooLarge := by
  refine ⟨List.mem_cons_of_mem _ (List.mem_cons_self _ _), rfl, ?_, rfl, by decide⟩
  show maxDataMemory < (List.replicate (maxDataMemory + 1) 'q').length
  rw [List.length_replicate]
  omega

/-- C7 (amended): a body containing a value part over the in-memory
cap always fails the whole decode (no decoded object); the error is the
payload-too-large one whenever no file part violates the file cap
first; and every field value a successful decode captures is the full
content of its part — never a truncation. -/
theorem claim_C7_field_cap_behavior (maxFileSize : Nat) (parts : List Part) :
    ((∃ p ∈ parts, p.fileName = "" ∧ maxDataMemory < p.content.length) →
      (∃ e, CreateMultipartStreamDecoder maxFileSize parts = .error e)
      ∧ ((∀ p ∈ parts, p.fileName ≠ "" → p.content.length ≤ maxFileSize) →
         CreateMultipartStreamDecoder maxFileSize parts = .error errMultipartMessageTooLarge))
    ∧ (∀ res, CreateMultipartStreamDecoder maxFileSize parts = .ok res →
      ∀ nv ∈ res.formData,
        ∃ p ∈ parts, p.fileName = "" ∧ p.formName = nv.1 ∧ p.content = nv.2) := by
  constructor
  · intro hbig
    exact ⟨createMultipartLoop_fails maxFileSize parts _ hbig,
      fun hfiles => createMultipartLoop_field_error maxFileSize parts _ hbig hfiles⟩
  · intro res h nv hnv
    rcases createMultipartLoop_formData maxFileSize parts _ res h nv hnv with hacc | hw
    · exact absurd hacc (List.not_mem_nil nv)
    · exact hw

/-- C7 witness: a lone over-cap field fails with payload-too-large, and
the captured field of a successful decode is the full part content. -/
theorem claim_C7_field_cap_behavior_witness :
    CreateMultipartStreamDecoder 10 [samplePartBigField] = .error errMultipartMessageTooLarge
    ∧ (∃ p ∈ [samplePartSmallField],
        p.fileName = "" ∧ p.formName = "sheet" ∧ p.content = ['Q', '1']) := by
  constructor
  · refine ((claim_C7_field_cap_behavior 10 [samplePartBigField]).1
      ⟨samplePartBigField, List.mem_cons_self _ _, rfl, ?_⟩).2 ?_
    · show maxDataMemory < (List.replicate (maxDataMemory + 1) 'q').length
      rw [List.length_replicate]
      omega
    · intro p hp hne
      have hps : p = samplePartBigField := List.mem_singleton.mp hp
      subst hps
      exact absurd rfl hne
  · exact (claim_C7_field_cap_behavior 10 [samplePartSmallField]).2
      ⟨[("sheet", ['Q', '1'])], [], []⟩ rfl ("sheet", ['Q', '1']) (List.mem_singleton.mpr rfl)

/-- The part loop of the single-file decoder consumes the value parts
before the first file part in full, then stops at that file part; the
parts after it are never read. -/
theorem commonFileUploadLoop_stops (filePart : Part) (post : List Part) (pre : List Part) :
    ∀ acc : List (String × List Char),
      (∀ p ∈ pre, p.fileName = "" ∧ p.content.length ≤ maxMemorySingle) →
      filePart.fileName ≠ "" →
      commonFileUploadLoop (pre ++ filePart :: post) acc
        = .ok ⟨acc ++ pre.map (fun p => (p.formName, p.content)),
               some ⟨filePart.fileName, filePart.contentType, filePart.content⟩⟩ := by
  induction pre with
  | nil =>
    intro acc _ hfile
    simp only [List.nil_append, commonFileUploadLoop, if_neg hfile, List.map_nil,
      List.append_nil]
  | cons p rest ih =>
    intro acc hpre hfile
    have hp := hpre p (List.mem_cons_self p rest)
    have hover : ¬ (maxMemorySingle < min p.content.length (maxMemorySingle + 1)) := by
      have := hp.2
      omega
    have hfull : p.content.take (maxMemorySingle + 1) = p.content :=
      List.take_of_length_le (by have := hp.2; omega)
    simp only [List.cons_append, commonFileUploadLoop, if_pos hp.1, if_neg hover, hfull,
      List.append_eq]
    rw [ih (acc ++ [(p.formName, p.content)])
      (fun q hq => hpre q (List.mem_cons_of_mem p hq)) hfile]
    simp [List.append_assoc]

/-- C8 counterexample: in single-file mode a form field placed after
the file part is not captured — the decode succeeds with an empty form
data list, which does not contain the trailing field. -/
theorem claim_C8_counterexample :
    CommonFileUploadStreamDecoder [samplePartFile, samplePartSmallField]
      = .ok ⟨[], some ⟨"doc.bin", "application/octet-stream", ['a', 'b', 'c', 'd']⟩⟩
    ∧ ("sheet", ['Q', '1']) ∉ ([] : List (String × List Char)) := by
  exact ⟨rfl, by simp⟩

/-- C8 (amended): single-file decode stops at the first file-bearing
part; the form-value parts before it are captured in order and in full
and the parts after it are left unread — the outcome is independent of
what follows the file part. -/
theorem claim_C8_single_file_stops_at_first_file (pre : List Part) (filePart : Part)
    (post : List Part)
    (hpre : ∀ p ∈ pre, p.fileName = "" ∧ p.content.length ≤ maxMemorySingle)
    (hfile : filePart.fileName ≠ "") :
    CommonFileUploadStreamDecoder (pre ++ filePart :: post)
      = .ok ⟨pre.map (fun p => (p.formName, p.content)),
             some ⟨filePart.fileName, filePart.contentType, filePart.content⟩⟩ := by
  have h := commonFileUploadLoop_stops filePart post pre [] hpre hfile
  simpa [CommonFileUploadStreamDecoder] using h

/-- C8 witness: a field before the file is captured; an oversized field
after the file is ignored rather than decoded or rejected. -/
theorem claim_C8_single_file_stops_at_first_file_witness :
    CommonFileUploadStreamDecoder [samplePartSmallField, samplePartFile, samplePartBigField]
      = .ok ⟨[("sheet", ['Q', '1'])],
             some ⟨"doc.bin", "application/octet-stream", ['a', 'b', 'c', 'd']⟩⟩ := by
  have h := claim_C8_single_file_stops_at_first_file [samplePartSmallField] samplePartFile
    [samplePartBigField]
    (by
      intro p hp
      have hps : p = samplePartSmallField := List.mem_singleton.mp hp
      subst hps
      exact ⟨rfl, by decide⟩)
    (by decide)
  exact h

end Apikit
